import Mathlib

/-!
The sync-server: the Reminder REST handlers over the `reminders` table

A shallow embedding of `src/sync-server/main.go`.

* The Go struct `Reminder` and its JSON binding (`ShouldBindJSON` with the
  `binding:"required"` tags) are modelled by `Reminder`, `ReminderJSON`,
  `unmarshal`, `validate` and `ShouldBindJSON`.
* The `reminders` table of `initDatabase` is modelled by `Row` and `DB`:
  the rows in table order, together with the `sqlite_sequence` counter that
  `INTEGER PRIMARY KEY AUTOINCREMENT` maintains.
* Every SQL statement of the handlers is a function on `DB`
  (`selectAll`, `selectById`, `insertReminder`, `updateById`, `deleteById`).
* Every handler is a function from the store and the request to the HTTP
  response and the store after the request.

Two things the handlers receive from outside are parameters of the model:
`now`, the text that `CURRENT_TIMESTAMP` evaluates to while the statement
runs, and `conv`, the storage engine's reading of a text parameter that is
compared with the integer column `id` (`WHERE id = ?` with a Go string:
`conv s = some i` when the engine reads `s` as the integer `i`, `none` when
`s` stays a text value, which equals no integer).

The model is of a storage engine that works: the only statement error in it
is the one the schema itself can raise, the exhaustion of row ids.
-/

namespace SyncServer

/-! ## The `Reminder` struct and its JSON binding -/

/-- The Go struct `Reminder` (main.go, lines 15-25). -/
structure Reminder where
  ID : Int
  Title : String
  Description : String
  Time : String
  Completed : Bool
  Category : String
  Frequency : String
  CreatedAt : String
  UpdatedAt : String
  deriving DecidableEq, Repr

/-- A JSON request body that is an object whose keys of `Reminder` are either
absent (or `null`) or present with a value of the JSON type of the field: a
string, a boolean, an integer for `id`. The integer may be any integer;
whether it fits the Go type `int64` of `Reminder.ID` is checked by the
decoder (`ShouldBindJSON`). -/
structure ReminderJSON where
  id : Option Int := none
  title : Option String := none
  description : Option String := none
  time : Option String := none
  completed : Option Bool := none
  category : Option String := none
  frequency : Option String := none
  created_at : Option String := none
  updated_at : Option String := none
  deriving DecidableEq, Repr

/-- Why `ShouldBindJSON` failed: the JSON decoder rejected the body (with its
message), the decoder could not store the number given for `id` in an
`int64`, or the listed struct fields failed the `required` tag. -/
inductive BindError where
  | decode (msg : String)
  | idRange (n : Int)
  | required (fields : List String)
  deriving DecidableEq, Repr

/-- What arrives as request body: the decoder's error when the body is not a
well-typed JSON object, the decoded keys otherwise. -/
abbrev RequestBody := Except String ReminderJSON

/-- Decoding into `var reminder Reminder`: an absent key leaves the zero
value of its field. -/
def unmarshal (j : ReminderJSON) : Reminder :=
  { ID := j.id.getD 0
    Title := j.title.getD ""
    Description := j.description.getD ""
    Time := j.time.getD ""
    Completed := j.completed.getD false
    Category := j.category.getD ""
    Frequency := j.frequency.getD ""
    CreatedAt := j.created_at.getD ""
    UpdatedAt := j.updated_at.getD "" }

/-- The fields tagged `binding:"required"` that hold their zero value, in the
order of the struct. -/
def validate (r : Reminder) : List String :=
  (if r.Title = "" then ["Title"] else []) ++
  (if r.Time = "" then ["Time"] else []) ++
  (if r.Category = "" then ["Category"] else []) ++
  (if r.Frequency = "" then ["Frequency"] else [])

/-- The range of the Go type `int64`, the type of `Reminder.ID`. -/
def fitsInt64 (n : Int) : Prop :=
  -(2 : Int) ^ 63 ≤ n ∧ n < (2 : Int) ^ 63

instance (n : Int) : Decidable (fitsInt64 n) := by
  unfold fitsInt64; infer_instance

/-- The call `c.ShouldBindJSON(&reminder)`: decode, then validate. Decoding
fails when the body is not a well-typed object and when the number given
for `id` overflows `int64`; validation runs only after a decode without
error. -/
def ShouldBindJSON (body : RequestBody) : Except BindError Reminder :=
  match body with
  | .error msg => .error (.decode msg)
  | .ok j =>
    match j.id with
    | some n =>
      if ¬ fitsInt64 n then .error (.idRange n)
      else
        let r := unmarshal j
        if validate r = [] then .ok r else .error (.required (validate r))
    | none =>
      let r := unmarshal j
      if validate r = [] then .ok r else .error (.required (validate r))

/-! ## `strconv.ParseInt(id, 10, 64)` -/

/-- Value of a decimal digit byte. -/
def digitVal (c : Char) : Option Nat :=
  if '0' ≤ c ∧ c ≤ '9' then some (c.toNat - '0'.toNat) else none

/-- The digit loop of `strconv.ParseUint` in base 10: every character must be
a decimal digit (no underscores, as the base is given). -/
def parseDigits : List Char → Nat → Option Nat
  | [], acc => some acc
  | c :: cs, acc =>
    match digitVal c with
    | none => none
    | some d => parseDigits cs (acc * 10 + d)

/-- The call `strconv.ParseUint(s, 10, 64)`: a syntax error on the empty
string or a non-digit, a range error from `2^64` on. -/
def ParseUint (cs : List Char) : Option Nat :=
  match cs with
  | [] => none
  | _ =>
    match parseDigits cs 0 with
    | none => none
    | some n => if n < 2 ^ 64 then some n else none

/-- The call `strconv.ParseInt(s, 10, 64)`; `none` stands for `err != nil`. -/
def ParseInt (s : String) : Option Int :=
  match s.toList with
  | [] => none
  | c :: cs =>
    let neg := c = '-'
    let rest := if c = '+' ∨ c = '-' then cs else c :: cs
    match ParseUint rest with
    | none => none
    | some un =>
      if ¬ neg ∧ un ≥ 2 ^ 63 then none
      else if neg ∧ un > 2 ^ 63 then none
      else some (if neg then -(un : Int) else (un : Int))

/-! ## The `reminders` table -/

/-- One row of the table `reminders` (main.go, lines 57-67). -/
structure Row where
  id : Int
  title : String
  description : String
  time : String
  completed : Int
  category : String
  frequency : String
  created_at : String
  updated_at : String
  deriving DecidableEq, Repr

/-- The database: the rows of `reminders` and the `sqlite_sequence` entry of
the table, the largest row id ever assigned (0 before the first insert). -/
structure DB where
  rows : List Row
  seq : Int
  deriving DecidableEq, Repr

/-- The database right after `initDatabase` on a fresh file. -/
def DB.empty : DB := { rows := [], seq := 0 }

/-- Largest signed 64-bit integer, the largest row id. -/
def maxRowid : Int := 9223372036854775807

/-- Largest row id present in the table (0 for the empty table). -/
def largestRowid (rows : List Row) : Int :=
  rows.foldr (fun r m => max r.id m) 0

/-- The row id `AUTOINCREMENT` picks: one more than the largest of the ids in
the table and the recorded sequence value. -/
def nextRowid (db : DB) : Int :=
  max db.seq (largestRowid db.rows) + 1

/-- The statement `INSERT INTO reminders (title, description, time, completed,
category, frequency) VALUES (?, ?, ?, ?, ?, ?)`: `id` comes from
`AUTOINCREMENT`, both timestamps from `DEFAULT CURRENT_TIMESTAMP`. The insert
fails when the largest row id has been used. Returns the new database and
`LastInsertId`. -/
def insertReminder (db : DB) (now : String)
    (title description time : String) (completed : Int)
    (category frequency : String) : Option (DB × Int) :=
  if max db.seq (largestRowid db.rows) ≥ maxRowid then none
  else
    let id := nextRowid db
    some ({ rows := db.rows ++ [{ id := id, title := title, description := description,
                                  time := time, completed := completed, category := category,
                                  frequency := frequency, created_at := now,
                                  updated_at := now }],
            seq := id }, id)

/-- The statement `UPDATE reminders SET title = ?, description = ?, time = ?,
completed = ?, category = ?, frequency = ?, updated_at = CURRENT_TIMESTAMP
WHERE id = ?` with an integer id. Returns the new database and
`RowsAffected`. -/
def updateById (db : DB) (now : String)
    (title description time : String) (completed : Int)
    (category frequency : String) (id : Int) : DB × Nat :=
  ({ db with rows := db.rows.map (fun r =>
        if r.id = id then
          { r with title := title, description := description, time := time,
                   completed := completed, category := category,
                   frequency := frequency, updated_at := now }
        else r) },
   (db.rows.filter (fun r => r.id = id)).length)

/-- The statement `DELETE FROM reminders WHERE id = ?` with a text
parameter. Returns the new database and `RowsAffected`. -/
def deleteById (conv : String → Option Int) (db : DB) (id : String) : DB × Nat :=
  ({ db with rows := db.rows.filter (fun r => ¬ (conv id = some r.id)) },
   (db.rows.filter (fun r => conv id = some r.id)).length)

/-- The statement `SELECT ... FROM reminders WHERE id = ?` with a text
parameter, read by `QueryRow`: the first matching row, if any. -/
def selectById (conv : String → Option Int) (db : DB) (id : String) : Option Row :=
  db.rows.find? (fun r => conv id = some r.id)

/-- The order in which `ORDER BY created_at DESC` returns two rows: the engine
reads the index `idx_reminders_created_at` backwards, so the later
`created_at` comes first and, among rows of equal `created_at`, the larger
`id`. -/
def comesBefore (a b : Row) : Prop :=
  b.created_at < a.created_at ∨ (b.created_at = a.created_at ∧ b.id ≤ a.id)

instance (a b : Row) : Decidable (comesBefore a b) := by
  unfold comesBefore; infer_instance

/-- The statement `SELECT ... FROM reminders ORDER BY created_at DESC`. -/
def selectAll (db : DB) : List Row :=
  db.rows.insertionSort comesBefore

/-- The call `rows.Scan(...)` followed by `r.Completed = completed != 0`. -/
def scanRow (r : Row) : Reminder :=
  { ID := r.id
    Title := r.title
    Description := r.description
    Time := r.time
    Completed := decide (r.completed ≠ 0)
    Category := r.category
    Frequency := r.frequency
    CreatedAt := r.created_at
    UpdatedAt := r.updated_at }

/-! ## HTTP responses and handlers -/

/-- The body of an error response, `gin.H` with the key `error`: a fixed text
or the text of a binding error. -/
inductive ErrorBody where
  | text (msg : String)
  | binding (e : BindError)
  deriving DecidableEq, Repr

/-- An HTTP response of the service: status and JSON body. In `reminders` the
body is a Go slice, `none` being the nil slice (encoded as `null`). -/
inductive Response where
  | reminders (status : Nat) (body : Option (List Reminder))
  | reminder (status : Nat) (body : Reminder)
  | error (status : Nat) (body : ErrorBody)
  | message (status : Nat) (msg : String)
  deriving DecidableEq, Repr

/-- Status code of a response. -/
def Response.status : Response → Nat
  | .reminders s _ => s
  | .reminder s _ => s
  | .error s _ => s
  | .message s _ => s

/-- The Go statement `reminders = append(reminders, r)` on a possibly nil slice. -/
def goAppend (s : Option (List Reminder)) (r : Reminder) : Option (List Reminder) :=
  match s with
  | none => some [r]
  | some l => some (l ++ [r])

/-- Handler `getAllReminders` (main.go, lines 118-149). -/
def getAllReminders (db : DB) : Response × DB :=
  let reminders := (selectAll db).foldl (fun acc row => goAppend acc (scanRow row)) none
  let reminders := if reminders = none then some [] else reminders
  (.reminders 200 reminders, db)

/-- Handler `getReminder` (main.go, lines 151-174). -/
def getReminder (conv : String → Option Int) (db : DB) (id : String) : Response × DB :=
  match selectById conv db id with
  | none => (.error 404 (.text "Reminder not found"), db)
  | some row => (.reminder 200 (scanRow row), db)

/-- Handler `createReminder` (main.go, lines 176-204). -/
def createReminder (db : DB) (now : String) (body : RequestBody) : Response × DB :=
  match ShouldBindJSON body with
  | .error e => (.error 400 (.binding e), db)
  | .ok reminder =>
    let completed : Int := if reminder.Completed then 1 else 0
    match insertReminder db now reminder.Title reminder.Description reminder.Time completed
        reminder.Category reminder.Frequency with
    | none => (.error 500 (.text "Failed to create reminder"), db)
    | some (db', id) => (.reminder 201 { reminder with ID := id }, db')

/-- Handler `updateReminder` (main.go, lines 206-246). -/
def updateReminder (db : DB) (now : String) (id : String) (body : RequestBody) :
    Response × DB :=
  match ParseInt id with
  | none => (.error 400 (.text "Invalid ID"), db)
  | some idInt =>
    match ShouldBindJSON body with
    | .error e => (.error 400 (.binding e), db)
    | .ok reminder =>
      let completed : Int := if reminder.Completed then 1 else 0
      let (db', rowsAffected) :=
        updateById db now reminder.Title reminder.Description reminder.Time completed
          reminder.Category reminder.Frequency idInt
      if rowsAffected = 0 then (.error 404 (.text "Reminder not found"), db')
      else (.reminder 200 { reminder with ID := idInt }, db')

/-- Handler `deleteReminder` (main.go, lines 248-266). -/
def deleteReminder (conv : String → Option Int) (db : DB) (id : String) : Response × DB :=
  let (db', rowsAffected) := deleteById conv db id
  if rowsAffected = 0 then (.error 404 (.text "Reminder not found"), db')
  else (.message 200 "Reminder deleted successfully", db')

/-! ## Requests and runs of the service -/

/-- A request to one of the five routes under `/api`. -/
inductive Request where
  | list
  | get (id : String)
  | create (body : RequestBody)
  | update (id : String) (body : RequestBody)
  | delete (id : String)
  deriving Repr

/-- A request together with the value of `CURRENT_TIMESTAMP` while it is
served. -/
structure Event where
  now : String
  req : Request
  deriving Repr

/-- The router: dispatch of one request to its handler (`setupRoutes`). -/
def serve (conv : String → Option Int) (db : DB) (e : Event) : Response × DB :=
  match e.req with
  | .list => getAllReminders db
  | .get id => getReminder conv db id
  | .create body => createReminder db e.now body
  | .update id body => updateReminder db e.now id body
  | .delete id => deleteReminder conv db id

/-- The database after serving the events in order. -/
def runDB (conv : String → Option Int) (db : DB) : List Event → DB
  | [] => db
  | e :: es => runDB conv (serve conv db e).2 es

/-- The responses to the events, in order. -/
def runResponses (conv : String → Option Int) (db : DB) : List Event → List Response
  | [] => []
  | e :: es => (serve conv db e).1 :: runResponses conv (serve conv db e).2 es

/-- The id a response announces as created: the `id` of a 201 body. -/
def createdId? : Response → Option Int
  | .reminder status r => if status = 201 then some r.ID else none
  | _ => none

/-- The ids carried by the 201 responses, in order. -/
def createdIds (rs : List Response) : List Int :=
  rs.filterMap createdId?

/-- A reading of text parameters that accepts exactly the strings
`strconv.ParseInt` accepts; used to run the model on concrete requests. -/
def decimalConv : String → Option Int := ParseInt

/-- Consistency of a database with its schema: `id` is a primary key (no two
rows share an id) and the sequence counter is at least every id in the table
and not negative. -/
def DB.WF (db : DB) : Prop :=
  (db.rows.map Row.id).Nodup ∧ (∀ r ∈ db.rows, r.id ≤ db.seq) ∧ 0 ≤ db.seq

/-- A required key is missing (absent or `null`) or holds the empty string. -/
def missing (o : Option String) : Prop := o = none ∨ o = some ""

instance (o : Option String) : Decidable (missing o) := by
  unfold missing; infer_instance

/-- A well-typed body in the sense of the Go struct: the `id`, when given,
fits `int64`. -/
def ReminderJSON.IdFits (j : ReminderJSON) : Prop :=
  ∀ n : Int, j.id = some n → fitsInt64 n

instance (j : ReminderJSON) : Decidable j.IdFits :=
  match h : j.id with
  | none => isTrue (fun n hn => by rw [h] at hn; exact absurd hn (by simp))
  | some m =>
    if hm : fitsInt64 m then
      isTrue (fun n hn => by rw [h] at hn; cases hn; exact hm)
    else isFalse (fun hf => hm (hf m h))

/-- A valid body: `title`, `time`, `category` and `frequency` are present and
not empty. -/
def ReminderJSON.Valid (j : ReminderJSON) : Prop :=
  ¬ missing j.title ∧ ¬ missing j.time ∧ ¬ missing j.category ∧ ¬ missing j.frequency

instance (j : ReminderJSON) : Decidable j.Valid := by
  unfold ReminderJSON.Valid; infer_instance

/-- The row that `createReminder` and `updateReminder` write for a body. -/
def rowOfBody (id : Int) (j : ReminderJSON) (created updated : String) : Row :=
  { id := id
    title := (unmarshal j).Title
    description := (unmarshal j).Description
    time := (unmarshal j).Time
    completed := if (unmarshal j).Completed then 1 else 0
    category := (unmarshal j).Category
    frequency := (unmarshal j).Frequency
    created_at := created
    updated_at := updated }

/-- What the `UPDATE` statement of `updateReminder` does to one row: the row
with the given id gets the fields of the body and a new `updated_at`. -/
def setFields (id : Int) (j : ReminderJSON) (now : String) (r : Row) : Row :=
  if r.id = id then rowOfBody r.id j r.created_at now else r

/-- The effect of one request on the database: nothing, one inserted row, an
update by id, or the removal of the rows selected by a condition. -/
def Step (db : DB) (now : String) (db' : DB) : Prop :=
  db' = db ∨
  (∃ j : ReminderJSON,
    db' = { rows := db.rows ++ [rowOfBody (nextRowid db) j now now], seq := nextRowid db }) ∨
  (∃ (i : Int) (j : ReminderJSON), db' = { db with rows := db.rows.map (setFields i j now) }) ∨
  (∃ p : Row → Bool, db' = { db with rows := db.rows.filter p })

/-! ## What a decimal 64-bit literal is -/

/-- Value of a list of decimal digits, most significant first. -/
def decimalValue (ds : List Char) : Nat :=
  ds.foldl (fun acc c => acc * 10 + (c.toNat - '0'.toNat)) 0

/-- The string `s` is a base-10 literal of the signed 64-bit integer `i`: an
optional sign, then at least one decimal digit, with value in range. -/
def IsDecimalInt64 (s : String) (i : Int) : Prop :=
  ∃ (neg : Bool) (sign ds : List Char),
    s.toList = sign ++ ds ∧
    (sign = [] ∧ neg = false ∨ sign = ['+'] ∧ neg = false ∨ sign = ['-'] ∧ neg = true) ∧
    ds ≠ [] ∧ (∀ c ∈ ds, '0' ≤ c ∧ c ≤ '9') ∧
    i = (if neg then -(decimalValue ds : Int) else (decimalValue ds : Int)) ∧
    -(2 : Int) ^ 63 ≤ i ∧ i < (2 : Int) ^ 63

/-! ## Sample requests and stores -/

/-- The body of the creation scenario. -/
def milk : ReminderJSON :=
  { title := some "Buy milk", time := some "08:00", category := some "errand",
    frequency := some "once" }

/-- The body of the update scenario, with a client-chosen `id`. -/
def oatMilk : ReminderJSON :=
  { id := some 77, title := some "Buy oat milk", time := some "08:00", completed := some true,
    category := some "errand", frequency := some "once" }

/-- A body without `title`. -/
def untitled : ReminderJSON :=
  { time := some "08:00", category := some "errand", frequency := some "once" }

/-- The store after one creation of `milk` at time `t0`. -/
def oneRow : DB :=
  { rows := [rowOfBody 1 milk "t0" "t0"], seq := 1 }

/-- A store with two rows created at different times. -/
def twoRows : DB :=
  { rows := [rowOfBody 1 milk "t0" "t0", rowOfBody 2 oatMilk "t1" "t1"], seq := 2 }

/-- A store with three rows created at the same time. -/
def tiedRows : DB :=
  { rows := [rowOfBody 1 milk "t0" "t0", rowOfBody 2 oatMilk "t0" "t0",
             rowOfBody 3 milk "t0" "t0"],
    seq := 3 }

/-- A store whose only row holds 2 in the column `completed`. -/
def flagTwo : DB :=
  { rows := [Row.mk 5 "Call home" "" "19:00" 2 "family" "daily" "t0" "t3"], seq := 5 }

/-- A valid body whose `id` does not fit `int64`. -/
def hugeId : ReminderJSON :=
  { id := some 9223372036854775808, title := some "Buy milk", time := some "08:00",
    category := some "errand", frequency := some "once" }

/-- A run: two creations, an update of the first row an hour later, and the
deletion of the second row. -/
def sampleRun : List Event :=
  [⟨"2024-01-01 08:00:00", .create (.ok milk)⟩,
   ⟨"2024-01-01 08:00:00", .create (.ok oatMilk)⟩,
   ⟨"2024-01-01 09:00:00", .update "1" (.ok oatMilk)⟩,
   ⟨"2024-01-01 09:00:00", .delete "2"⟩]

/-! ## Binding -/

theorem missing_iff (o : Option String) : missing o ↔ o.getD "" = "" := by
  cases o with
  | none => simp [missing]
  | some v => simp [missing]

theorem validate_eq_nil_iff (j : ReminderJSON) : validate (unmarshal j) = [] ↔ j.Valid := by
  simp only [validate, unmarshal, ReminderJSON.Valid, missing_iff]
  by_cases h1 : j.title.getD "" = "" <;> by_cases h2 : j.time.getD "" = "" <;>
    by_cases h3 : j.category.getD "" = "" <;> by_cases h4 : j.frequency.getD "" = "" <;>
    simp [h1, h2, h3, h4]

theorem bind_valid (j : ReminderJSON) (hf : j.IdFits) (h : j.Valid) :
    ShouldBindJSON (.ok j) = .ok (unmarshal j) := by
  have hv := (validate_eq_nil_iff j).2 h
  unfold ShouldBindJSON
  simp only
  split
  · rename_i n hn
    simp only [hf n hn, not_true_eq_false, if_false, hv, if_true]
  · simp only [hv, if_true]

theorem bind_invalid (j : ReminderJSON) (hf : j.IdFits) (h : ¬ j.Valid) :
    ShouldBindJSON (.ok j) = .error (.required (validate (unmarshal j))) := by
  have hv : ¬ validate (unmarshal j) = [] := fun hv => h ((validate_eq_nil_iff j).1 hv)
  unfold ShouldBindJSON
  simp only
  split
  · rename_i n hn
    simp only [hf n hn, not_true_eq_false, if_false, hv]
  · simp only [hv, if_false]

theorem bind_overflow (j : ReminderJSON) (hf : ¬ j.IdFits) :
    ∃ n : Int, j.id = some n ∧ ¬ fitsInt64 n ∧ ShouldBindJSON (.ok j) = .error (.idRange n) := by
  cases hid : j.id with
  | none => exact absurd (fun n hn => by rw [hid] at hn; exact absurd hn (by simp)) hf
  | some m =>
    have hm : ¬ fitsInt64 m := fun hm => hf (fun n hn => by rw [hid] at hn; cases hn; exact hm)
    refine ⟨m, rfl, hm, ?_⟩
    unfold ShouldBindJSON
    simp only [hid, hm, not_false_eq_true, if_true]

/-- A body whose `id` overflows `int64` fails to bind even with all required
fields present. -/
theorem bind_hugeId :
    hugeId.Valid ∧ ShouldBindJSON (.ok hugeId) = .error (.idRange 9223372036854775808) := by
  refine ⟨by decide, ?_⟩
  have h : ¬ fitsInt64 9223372036854775808 := by decide
  simp only [ShouldBindJSON, hugeId, h, not_false_eq_true, if_true]

/-- A decoded body that does not bind is answered by a binding error. -/
theorem bind_rejects (j : ReminderJSON) (h : ¬ (j.IdFits ∧ j.Valid)) :
    ∃ e : BindError, ShouldBindJSON (.ok j) = .error e := by
  by_cases hf : j.IdFits
  · exact ⟨_, bind_invalid j hf (fun hv => h ⟨hf, hv⟩)⟩
  · obtain ⟨n, -, -, hn⟩ := bind_overflow j hf
    exact ⟨_, hn⟩

/-! ## `ParseInt` accepts exactly the decimal 64-bit literals -/

theorem parseDigits_eq_some (cs : List Char) (acc n : Nat) :
    parseDigits cs acc = some n ↔
      (∀ c ∈ cs, '0' ≤ c ∧ c ≤ '9') ∧
        n = cs.foldl (fun acc c => acc * 10 + (c.toNat - '0'.toNat)) acc := by
  induction cs generalizing acc with
  | nil => simp [parseDigits, eq_comm]
  | cons c cs ih =>
    by_cases hc : '0' ≤ c ∧ c ≤ '9'
    · have hd : digitVal c = some (c.toNat - '0'.toNat) := by simp [digitVal, hc]
      simp only [parseDigits, hd, ih, List.mem_cons, forall_eq_or_imp, List.foldl_cons, hc,
        true_and]
    · have hd : digitVal c = none := by simp [digitVal, hc]
      simp only [parseDigits, hd, List.mem_cons, forall_eq_or_imp, hc, false_and]
      simp

theorem ParseUint_eq_some (cs : List Char) (n : Nat) :
    ParseUint cs = some n ↔
      cs ≠ [] ∧ (∀ c ∈ cs, '0' ≤ c ∧ c ≤ '9') ∧ n = decimalValue cs ∧ n < 2 ^ 64 := by
  cases cs with
  | nil => simp [ParseUint]
  | cons c cs =>
    simp only [ParseUint, ne_eq, not_false_eq_true, true_and, reduceCtorEq]
    cases hd : parseDigits (c :: cs) 0 with
    | none =>
      simp only [false_iff, reduceCtorEq]
      rintro ⟨h1, h2, -⟩
      have := (parseDigits_eq_some (c :: cs) 0 n).2 ⟨h1, h2⟩
      rw [hd] at this
      exact absurd this (by simp)
    | some m =>
      obtain ⟨h1, h2⟩ := (parseDigits_eq_some (c :: cs) 0 m).1 hd
      simp only
      constructor
      · intro h
        split at h
        · simp only [Option.some.injEq] at h
          subst h
          exact ⟨h1, h2, by assumption⟩
        · simp at h
      · rintro ⟨-, h3, h4⟩
        have : m = n := by rw [h2, h3]; rfl
        subst this
        rw [if_pos h4]

theorem ParseInt_rest_iff (neg : Prop) [Decidable neg] (rest : List Char) (i : Int) :
    (match ParseUint rest with
      | none => none
      | some un =>
        if ¬ neg ∧ un ≥ 2 ^ 63 then none
        else if neg ∧ un > 2 ^ 63 then none
        else some (if neg then -(un : Int) else (un : Int))) = some i ↔
      rest ≠ [] ∧ (∀ c ∈ rest, '0' ≤ c ∧ c ≤ '9') ∧
        i = (if neg then -(decimalValue rest : Int) else (decimalValue rest : Int)) ∧
        -(2 : Int) ^ 63 ≤ i ∧ i < (2 : Int) ^ 63 := by
  cases hu : ParseUint rest with
  | none =>
    simp only [false_iff, reduceCtorEq]
    rintro ⟨h1, h2, h3, h4, h5⟩
    have hlt : decimalValue rest < 2 ^ 64 := by
      by_cases hn : neg
      · rw [if_pos hn] at h3; omega
      · rw [if_neg hn] at h3; omega
    have := (ParseUint_eq_some rest (decimalValue rest)).2 ⟨h1, h2, rfl, hlt⟩
    rw [hu] at this
    exact absurd this (by simp)
  | some un =>
    obtain ⟨h1, h2, h3, -⟩ := (ParseUint_eq_some rest un).1 hu
    subst h3
    simp only
    by_cases hn : neg
    · simp only [hn, not_true_eq_false, false_and, if_false, true_and, if_true]
      by_cases hr : decimalValue rest > 2 ^ 63
      · rw [if_pos hr]
        simp only [false_iff, reduceCtorEq]
        rintro ⟨-, -, h3, h4, -⟩
        omega
      · rw [if_neg hr]
        simp only [Option.some.injEq]
        constructor
        · intro h
          subst h
          refine ⟨h1, h2, rfl, ?_, ?_⟩ <;> omega
        · rintro ⟨-, -, h3, -⟩
          exact h3.symm
    · simp only [hn, not_false_eq_true, true_and, false_and, if_false]
      by_cases hr : decimalValue rest ≥ 2 ^ 63
      · rw [if_pos hr]
        simp only [false_iff, reduceCtorEq]
        rintro ⟨-, -, h3, -, h5⟩
        omega
      · rw [if_neg hr]
        simp only [Option.some.injEq]
        constructor
        · intro h
          subst h
          refine ⟨h1, h2, rfl, ?_, ?_⟩ <;> omega
        · rintro ⟨-, -, h3, -⟩
          exact h3.symm

theorem ParseInt_eq_some_iff (s : String) (i : Int) :
    ParseInt s = some i ↔ IsDecimalInt64 s i := by
  unfold ParseInt IsDecimalInt64
  cases hs : s.toList with
  | nil =>
    simp only [false_iff, reduceCtorEq]
    rintro ⟨neg, sign, ds, h, -, hne, -⟩
    have := List.append_eq_nil.1 h.symm
    exact hne this.2
  | cons c cs =>
    simp only
    rw [ParseInt_rest_iff]
    have hp : ¬ (('0' : Char) ≤ '+') := by decide
    have hm : ¬ (('0' : Char) ≤ '-') := by decide
    have hpm : ('+' : Char) ≠ '-' := by decide
    constructor
    · rintro ⟨h1, h2, h3, h4, h5⟩
      by_cases hplus : c = '+'
      · subst hplus
        simp only [true_or, if_true, hpm, if_false] at h1 h2 h3
        exact ⟨false, ['+'], cs, rfl, Or.inr (Or.inl ⟨rfl, rfl⟩), h1, h2, by simpa using h3,
          h4, h5⟩
      · by_cases hminus : c = '-'
        · subst hminus
          simp only [or_true, if_true] at h1 h2 h3
          exact ⟨true, ['-'], cs, rfl, Or.inr (Or.inr ⟨rfl, rfl⟩), h1, h2, by simpa using h3,
            h4, h5⟩
        · simp only [hplus, hminus, or_self, if_false] at h1 h2 h3
          exact ⟨false, [], c :: cs, rfl, Or.inl ⟨rfl, rfl⟩, h1, h2, by simpa using h3,
            h4, h5⟩
    · rintro ⟨neg, sign, ds, h, hsign, hne, hdig, hi, h4, h5⟩
      rcases hsign with ⟨rfl, rfl⟩ | ⟨rfl, rfl⟩ | ⟨rfl, rfl⟩
      · simp only [List.nil_append] at h
        subst h
        have hc := hdig c (List.mem_cons_self _ _)
        have hplus : c ≠ '+' := fun hc' => hp (hc' ▸ hc.1)
        have hminus : c ≠ '-' := fun hc' => hm (hc' ▸ hc.1)
        simp only [hplus, hminus, or_self, if_false]
        exact ⟨hne, hdig, by simpa using hi, h4, h5⟩
      · simp only [List.singleton_append, List.cons.injEq] at h
        obtain ⟨rfl, rfl⟩ := h
        simp only [true_or, if_true, hpm, if_false]
        exact ⟨hne, hdig, by simpa using hi, h4, h5⟩
      · simp only [List.singleton_append, List.cons.injEq] at h
        obtain ⟨rfl, rfl⟩ := h
        simp only [or_true, if_true]
        exact ⟨hne, hdig, by simpa using hi, h4, h5⟩

theorem ParseInt_eq_none_iff (s : String) :
    ParseInt s = none ↔ ¬ ∃ i : Int, IsDecimalInt64 s i := by
  constructor
  · rintro h ⟨i, hi⟩
    rw [(ParseInt_eq_some_iff s i).2 hi] at h
    exact absurd h (by simp)
  · intro h
    cases hp : ParseInt s with
    | none => rfl
    | some i => exact absurd ⟨i, (ParseInt_eq_some_iff s i).1 hp⟩ h

/-! ## Row ids -/

theorem le_largestRowid {rows : List Row} {r : Row} (h : r ∈ rows) :
    r.id ≤ largestRowid rows := by
  induction rows with
  | nil => simp at h
  | cons x xs ih =>
    simp only [largestRowid, List.foldr_cons]
    rcases List.mem_cons.1 h with rfl | h
    · exact le_max_left _ _
    · exact le_trans (ih h) (le_max_right _ _)

theorem insertReminder_spec {db db' : DB} {now t d tm c f : String} {k id : Int}
    (h : insertReminder db now t d tm k c f = some (db', id)) :
    id = nextRowid db ∧ db'.seq = id ∧
      db'.rows = db.rows ++ [Row.mk id t d tm k c f now now] := by
  unfold insertReminder at h
  split at h
  · simp at h
  · simp only [Option.some.injEq, Prod.mk.injEq] at h
    obtain ⟨h1, h2⟩ := h
    subst h2
    subst h1
    exact ⟨rfl, rfl, rfl⟩

theorem seq_lt_nextRowid (db : DB) : db.seq < nextRowid db := by
  unfold nextRowid
  have := le_max_left db.seq (largestRowid db.rows)
  omega

theorem id_lt_nextRowid {db : DB} {r : Row} (h : r ∈ db.rows) : r.id < nextRowid db := by
  unfold nextRowid
  have := le_largestRowid h
  have := le_max_right db.seq (largestRowid db.rows)
  omega

/-! ## The handlers, case by case -/

theorem createReminder_decode (db : DB) (now msg : String) :
    createReminder db now (.error msg) = (.error 400 (.binding (.decode msg)), db) := rfl

theorem createReminder_invalid (db : DB) (now : String) (j : ReminderJSON) (hf : j.IdFits)
    (h : ¬ j.Valid) :
    createReminder db now (.ok j) =
      (.error 400 (.binding (.required (validate (unmarshal j)))), db) := by
  simp [createReminder, bind_invalid j hf h]

theorem createReminder_rejected (db : DB) (now : String) (j : ReminderJSON)
    (h : ¬ (j.IdFits ∧ j.Valid)) :
    ∃ e : BindError, createReminder db now (.ok j) = (.error 400 (.binding e), db) := by
  obtain ⟨e, he⟩ := bind_rejects j h
  exact ⟨e, by simp [createReminder, he]⟩

theorem createReminder_hugeId (db : DB) (now : String) :
    createReminder db now (.ok hugeId) =
      (.error 400 (.binding (.idRange 9223372036854775808)), db) := by
  simp [createReminder, bind_hugeId.2]

theorem updateReminder_hugeId (db : DB) (now : String) :
    updateReminder db now "1" (.ok hugeId) =
      (.error 400 (.binding (.idRange 9223372036854775808)), db) := by
  have hp : ParseInt "1" = some 1 := by decide
  simp [updateReminder, hp, bind_hugeId.2]

theorem createReminder_full (db : DB) (now : String) (j : ReminderJSON) (hf : j.IdFits)
    (h : j.Valid)
    (hfull : max db.seq (largestRowid db.rows) ≥ maxRowid) :
    createReminder db now (.ok j) = (.error 500 (.text "Failed to create reminder"), db) := by
  simp [createReminder, bind_valid j hf h, insertReminder, hfull]

theorem createReminder_created (db : DB) (now : String) (j : ReminderJSON) (hf : j.IdFits)
    (h : j.Valid)
    (hroom : ¬ max db.seq (largestRowid db.rows) ≥ maxRowid) :
    createReminder db now (.ok j) =
      (.reminder 201 { unmarshal j with ID := nextRowid db },
       { rows := db.rows ++ [rowOfBody (nextRowid db) j now now], seq := nextRowid db }) := by
  simp [createReminder, bind_valid j hf h, insertReminder, hroom, rowOfBody]

theorem updateReminder_badId (db : DB) (now id : String) (body : RequestBody)
    (h : ParseInt id = none) :
    updateReminder db now id body = (.error 400 (.text "Invalid ID"), db) := by
  simp [updateReminder, h]

theorem updateReminder_decode (db : DB) (now id msg : String) (i : Int)
    (h : ParseInt id = some i) :
    updateReminder db now id (.error msg) = (.error 400 (.binding (.decode msg)), db) := by
  simp [updateReminder, h, ShouldBindJSON]

theorem updateReminder_rejected (db : DB) (now id : String) (i : Int) (j : ReminderJSON)
    (h : ParseInt id = some i) (hj : ¬ (j.IdFits ∧ j.Valid)) :
    ∃ e : BindError, updateReminder db now id (.ok j) = (.error 400 (.binding e), db) := by
  obtain ⟨e, he⟩ := bind_rejects j hj
  exact ⟨e, by simp [updateReminder, h, he]⟩

theorem updateReminder_valid (db : DB) (now id : String) (i : Int) (j : ReminderJSON)
    (h : ParseInt id = some i) (hf : j.IdFits) (hj : j.Valid) :
    updateReminder db now id (.ok j) =
      (if (db.rows.filter (fun r => r.id = i)).length = 0
        then Response.error 404 (.text "Reminder not found")
        else Response.reminder 200 { unmarshal j with ID := i },
       { db with rows := db.rows.map (setFields i j now) }) := by
  have hmap : (fun r : Row => if r.id = i then
        ({ r with title := (unmarshal j).Title, description := (unmarshal j).Description,
                  time := (unmarshal j).Time,
                  completed := if (unmarshal j).Completed then 1 else 0,
                  category := (unmarshal j).Category,
                  frequency := (unmarshal j).Frequency, updated_at := now } : Row)
        else r) = setFields i j now := by
    funext r
    simp only [setFields, rowOfBody]
  simp only [updateReminder, h, bind_valid j hf hj, updateById, hmap]
  split <;> rfl

theorem deleteReminder_eq (conv : String → Option Int) (db : DB) (id : String) :
    deleteReminder conv db id =
      (if (db.rows.filter (fun r => conv id = some r.id)).length = 0
        then Response.error 404 (.text "Reminder not found")
        else Response.message 200 "Reminder deleted successfully",
       { db with rows := db.rows.filter (fun r => ¬ (conv id = some r.id)) }) := by
  simp only [deleteReminder, deleteById]
  split <;> rfl

/-! ## One request -/

theorem getAllReminders_db (db : DB) : (getAllReminders db).2 = db := rfl

theorem getReminder_db (conv : String → Option Int) (db : DB) (id : String) :
    (getReminder conv db id).2 = db := by
  unfold getReminder
  split <;> rfl

theorem createReminder_step (db : DB) (now : String) (body : RequestBody) :
    Step db now (createReminder db now body).2 := by
  cases body with
  | error msg => exact Or.inl rfl
  | ok j =>
    by_cases hj : j.IdFits ∧ j.Valid
    · by_cases hfull : max db.seq (largestRowid db.rows) ≥ maxRowid
      · rw [createReminder_full db now j hj.1 hj.2 hfull]; exact Or.inl rfl
      · rw [createReminder_created db now j hj.1 hj.2 hfull]; exact Or.inr (Or.inl ⟨j, rfl⟩)
    · obtain ⟨e, he⟩ := createReminder_rejected db now j hj
      rw [he]; exact Or.inl rfl

theorem updateReminder_step (db : DB) (now id : String) (body : RequestBody) :
    Step db now (updateReminder db now id body).2 := by
  cases hp : ParseInt id with
  | none => rw [updateReminder_badId db now id body hp]; exact Or.inl rfl
  | some i =>
    cases body with
    | error msg => rw [updateReminder_decode db now id msg i hp]; exact Or.inl rfl
    | ok j =>
      by_cases hj : j.IdFits ∧ j.Valid
      · rw [updateReminder_valid db now id i j hp hj.1 hj.2]
        exact Or.inr (Or.inr (Or.inl ⟨i, j, rfl⟩))
      · obtain ⟨e, he⟩ := updateReminder_rejected db now id i j hp hj
        rw [he]; exact Or.inl rfl

theorem deleteReminder_step (conv : String → Option Int) (db : DB) (now id : String) :
    Step db now (deleteReminder conv db id).2 := by
  rw [deleteReminder_eq]
  exact Or.inr (Or.inr (Or.inr ⟨fun r => ¬ (conv id = some r.id), rfl⟩))

theorem serve_step (conv : String → Option Int) (db : DB) (e : Event) :
    Step db e.now (serve conv db e).2 := by
  unfold serve
  cases e.req with
  | list => exact Or.inl rfl
  | get id => exact Or.inl (getReminder_db conv db id)
  | create body => exact createReminder_step db e.now body
  | update id body => exact updateReminder_step db e.now id body
  | delete id => exact deleteReminder_step conv db e.now id

theorem setFields_id (i : Int) (j : ReminderJSON) (now : String) (r : Row) :
    (setFields i j now r).id = r.id := by
  unfold setFields; split <;> rfl

theorem setFields_created_at (i : Int) (j : ReminderJSON) (now : String) (r : Row) :
    (setFields i j now r).created_at = r.created_at := by
  unfold setFields; split <;> rfl

theorem map_setFields_ids (i : Int) (j : ReminderJSON) (now : String) (rows : List Row) :
    (rows.map (setFields i j now)).map Row.id = rows.map Row.id := by
  rw [List.map_map]
  exact List.map_congr_left (fun r _ => setFields_id i j now r)

theorem Step.seq_le {db db' : DB} {now : String} (h : Step db now db') : db.seq ≤ db'.seq := by
  rcases h with rfl | ⟨j, rfl⟩ | ⟨i, j, rfl⟩ | ⟨p, rfl⟩
  · exact le_rfl
  · exact le_of_lt (seq_lt_nextRowid db)
  · exact le_rfl
  · exact le_rfl

/-- An id that is at most the sequence counter and not in the table is not in
the table after the request either. -/
theorem Step.absent {db db' : DB} {now : String} (h : Step db now db') {i : Int}
    (hi : i ≤ db.seq) (habs : ∀ r ∈ db.rows, r.id ≠ i) : ∀ r ∈ db'.rows, r.id ≠ i := by
  rcases h with rfl | ⟨j, rfl⟩ | ⟨k, j, rfl⟩ | ⟨p, rfl⟩
  · exact habs
  · intro r hr
    rcases List.mem_append.1 hr with hr | hr
    · exact habs r hr
    · rw [List.mem_singleton] at hr
      subst hr
      have := seq_lt_nextRowid db
      simp only [rowOfBody]
      omega
  · intro r hr
    obtain ⟨x, hx, rfl⟩ := List.mem_map.1 hr
    rw [setFields_id]
    exact habs x hx
  · intro r hr
    exact habs r (List.mem_filter.1 hr).1

theorem Step.wf {db db' : DB} {now : String} (h : Step db now db') (hwf : db.WF) : db'.WF := by
  obtain ⟨hnd, hle, h0⟩ := hwf
  rcases h with rfl | ⟨j, rfl⟩ | ⟨k, j, rfl⟩ | ⟨p, rfl⟩
  · exact ⟨hnd, hle, h0⟩
  · have hlt := seq_lt_nextRowid db
    refine ⟨?_, ?_, by simp only; omega⟩
    · simp only [List.map_append, List.map_cons, List.map_nil]
      refine List.Nodup.append hnd (List.nodup_singleton _) ?_
      intro a ha hb
      rw [List.mem_singleton] at hb
      obtain ⟨x, hx, rfl⟩ := List.mem_map.1 ha
      have := hle x hx
      simp only [rowOfBody] at hb
      omega
    · intro r hr
      rcases List.mem_append.1 hr with hr | hr
      · have := hle r hr
        simp only
        omega
      · rw [List.mem_singleton] at hr
        subst hr
        simp only [rowOfBody]
        exact le_rfl
  · refine ⟨?_, ?_, h0⟩
    · simp only [map_setFields_ids]
      exact hnd
    · intro r hr
      obtain ⟨x, hx, rfl⟩ := List.mem_map.1 hr
      rw [setFields_id]
      exact hle x hx
  · refine ⟨?_, ?_, h0⟩
    · exact (List.filter_sublist db.rows).map Row.id |>.nodup hnd
    · intro r hr
      exact hle r (List.mem_filter.1 hr).1

theorem eq_of_id_eq {db : DB} (hwf : db.WF) {r x : Row} (hr : r ∈ db.rows) (hx : x ∈ db.rows)
    (h : x.id = r.id) : x = r := by
  exact List.inj_on_of_nodup_map hwf.1 hx hr h

/-- A row that is in the table before and after a request keeps its
`created_at`. -/
theorem Step.created_at {db db' : DB} {now : String} (h : Step db now db') (hwf : db.WF)
    {r r' : Row} (hr : r ∈ db.rows) (hr' : r' ∈ db'.rows) (hid : r'.id = r.id) :
    r'.created_at = r.created_at := by
  rcases h with rfl | ⟨j, rfl⟩ | ⟨k, j, rfl⟩ | ⟨p, rfl⟩
  · rw [eq_of_id_eq hwf hr hr' hid]
  · rcases List.mem_append.1 hr' with hr' | hr'
    · rw [eq_of_id_eq hwf hr hr' hid]
    · rw [List.mem_singleton] at hr'
      subst hr'
      have := id_lt_nextRowid hr
      simp only [rowOfBody] at hid
      omega
  · obtain ⟨x, hx, rfl⟩ := List.mem_map.1 hr'
    rw [setFields_id] at hid
    rw [setFields_created_at, eq_of_id_eq hwf hr hx hid]
  · rw [eq_of_id_eq hwf hr (List.mem_filter.1 hr').1 hid]

/-! ## Runs -/

theorem runDB_append (conv : String → Option Int) (db : DB) (pre post : List Event) :
    runDB conv db (pre ++ post) = runDB conv (runDB conv db pre) post := by
  induction pre generalizing db with
  | nil => rfl
  | cons e es ih => exact ih _

theorem runDB_wf (conv : String → Option Int) (db : DB) (evs : List Event) (hwf : db.WF) :
    (runDB conv db evs).WF := by
  induction evs generalizing db with
  | nil => exact hwf
  | cons e es ih => exact ih _ (Step.wf (serve_step conv db e) hwf)

theorem runDB_seq_le (conv : String → Option Int) (db : DB) (evs : List Event) :
    db.seq ≤ (runDB conv db evs).seq := by
  induction evs generalizing db with
  | nil => exact le_rfl
  | cons e es ih => exact le_trans (Step.seq_le (serve_step conv db e)) (ih _)

theorem runDB_absent (conv : String → Option Int) (db : DB) (evs : List Event) {i : Int}
    (hi : i ≤ db.seq) (habs : ∀ r ∈ db.rows, r.id ≠ i) :
    ∀ r ∈ (runDB conv db evs).rows, r.id ≠ i := by
  induction evs generalizing db with
  | nil => exact habs
  | cons e es ih =>
    exact ih _ (le_trans hi (Step.seq_le (serve_step conv db e)))
      (Step.absent (serve_step conv db e) hi habs)

theorem runDB_created_at (conv : String → Option Int) (db : DB) (evs : List Event)
    (hwf : db.WF) {r r' : Row} (hr : r ∈ db.rows) (hr' : r' ∈ (runDB conv db evs).rows)
    (hid : r'.id = r.id) : r'.created_at = r.created_at := by
  induction evs generalizing db r with
  | nil => rw [eq_of_id_eq hwf hr hr' hid]
  | cons e es ih =>
    have hstep := serve_step conv db e
    by_cases hx : ∃ x ∈ (serve conv db e).2.rows, x.id = r.id
    · obtain ⟨x, hx, hxid⟩ := hx
      rw [ih _ (Step.wf hstep hwf) hx hr' (hid.trans hxid.symm)]
      exact Step.created_at hstep hwf hr hx hxid
    · exfalso
      have habs : ∀ x ∈ (serve conv db e).2.rows, x.id ≠ r.id :=
        fun x hxm hxid => hx ⟨x, hxm, hxid⟩
      have hle : r.id ≤ (serve conv db e).2.seq :=
        le_trans (hwf.2.1 r hr) (Step.seq_le hstep)
      exact runDB_absent conv _ es hle habs r' hr' hid

theorem wf_empty : DB.empty.WF := by
  refine ⟨?_, ?_, le_rfl⟩
  · simp [DB.empty]
  · intro r hr
    simp [DB.empty] at hr

/-! ## Created ids -/

theorem createdId_create (db : DB) (now : String) (body : RequestBody) {i : Int}
    (h : createdId? (createReminder db now body).1 = some i) :
    db.seq < i ∧ i ≤ (createReminder db now body).2.seq := by
  cases body with
  | error msg => simp [createReminder_decode, createdId?] at h
  | ok j =>
    by_cases hj : j.IdFits ∧ j.Valid
    · by_cases hfull : max db.seq (largestRowid db.rows) ≥ maxRowid
      · simp [createReminder_full db now j hj.1 hj.2 hfull, createdId?] at h
      · rw [createReminder_created db now j hj.1 hj.2 hfull] at h ⊢
        simp only [createdId?, if_true, Option.some.injEq] at h
        subst h
        exact ⟨seq_lt_nextRowid db, le_rfl⟩
    · obtain ⟨e, he⟩ := createReminder_rejected db now j hj
      simp [he, createdId?] at h

theorem createdId_update (db : DB) (now id : String) (body : RequestBody) :
    createdId? (updateReminder db now id body).1 = none := by
  cases hp : ParseInt id with
  | none => simp [updateReminder_badId db now id body hp, createdId?]
  | some k =>
    cases body with
    | error msg => simp [updateReminder_decode db now id msg k hp, createdId?]
    | ok j =>
      by_cases hj : j.IdFits ∧ j.Valid
      · rw [updateReminder_valid db now id k j hp hj.1 hj.2]
        simp only
        split <;> simp [createdId?]
      · obtain ⟨e, he⟩ := updateReminder_rejected db now id k j hp hj
        simp [he, createdId?]

theorem createdId_delete (conv : String → Option Int) (db : DB) (id : String) :
    createdId? (deleteReminder conv db id).1 = none := by
  rw [deleteReminder_eq]
  simp only
  split <;> simp [createdId?]

theorem createdId_get (conv : String → Option Int) (db : DB) (id : String) :
    createdId? (getReminder conv db id).1 = none := by
  unfold getReminder
  split <;> simp [createdId?]

theorem createdId_serve (conv : String → Option Int) (db : DB) (e : Event) {i : Int}
    (h : createdId? (serve conv db e).1 = some i) :
    db.seq < i ∧ i ≤ (serve conv db e).2.seq := by
  obtain ⟨now, req⟩ := e
  cases req with
  | list => simp [serve, getAllReminders, createdId?] at h
  | get id => simp [serve, createdId_get] at h
  | create body => exact createdId_create db now body h
  | update id body => simp [serve, createdId_update] at h
  | delete id => simp [serve, createdId_delete] at h

theorem createdIds_run (conv : String → Option Int) (db : DB) (evs : List Event) :
    (∀ i ∈ createdIds (runResponses conv db evs), db.seq < i) ∧
      (createdIds (runResponses conv db evs)).Pairwise (· < ·) := by
  induction evs generalizing db with
  | nil => simp [runResponses, createdIds]
  | cons e es ih =>
    obtain ⟨ih1, ih2⟩ := ih (serve conv db e).2
    have hmono := Step.seq_le (serve_step conv db e)
    simp only [runResponses, createdIds, List.filterMap_cons]
    simp only [createdIds] at ih1 ih2
    cases hc : createdId? (serve conv db e).1 with
    | none =>
      simp only
      exact ⟨fun i hi => lt_of_le_of_lt hmono (ih1 i hi), ih2⟩
    | some k =>
      simp only
      obtain ⟨hk1, hk2⟩ := createdId_serve conv db e hc
      refine ⟨?_, ?_⟩
      · intro i hi
        rcases List.mem_cons.1 hi with rfl | hi
        · exact hk1
        · exact lt_of_le_of_lt hmono (ih1 i hi)
      · exact List.pairwise_cons.2 ⟨fun i hi => lt_of_le_of_lt hk2 (ih1 i hi), ih2⟩

/-! ## Lookups -/

theorem selectById_none {conv : String → Option Int} {db : DB} {s : String}
    (h : ∀ r ∈ db.rows, conv s ≠ some r.id) : selectById conv db s = none := by
  unfold selectById
  rw [List.find?_eq_none]
  intro x hx
  simpa using h x hx

theorem selectById_of_mem {conv : String → Option Int} {db : DB} {s : String} {r : Row}
    (hwf : db.WF) (hr : r ∈ db.rows) (hc : conv s = some r.id) :
    selectById conv db s = some r := by
  unfold selectById
  cases hf : db.rows.find? (fun r => conv s = some r.id) with
  | none =>
    have := List.find?_eq_none.1 hf r hr
    simp [hc] at this
  | some x =>
    have hx := List.find?_some hf
    have hxm := List.mem_of_find?_eq_some hf
    simp only [decide_eq_true_eq, hc, Option.some.injEq] at hx
    rw [eq_of_id_eq hwf hr hxm hx.symm]

theorem scanRow_rowOfBody (i : Int) (j : ReminderJSON) (c u : String) :
    scanRow (rowOfBody i j c u) =
      Reminder.mk i (j.title.getD "") (j.description.getD "") (j.time.getD "")
        (j.completed.getD false) (j.category.getD "") (j.frequency.getD "") c u := by
  have hb : ∀ b : Bool, decide ((if b = true then (1 : Int) else 0) ≠ 0) = b := by
    intro b; cases b <;> rfl
  simp only [scanRow, rowOfBody, unmarshal, hb]

theorem foldl_goAppend_some (l : List Row) (acc : List Reminder) :
    l.foldl (fun acc row => goAppend acc (scanRow row)) (some acc) =
      some (acc ++ l.map scanRow) := by
  induction l generalizing acc with
  | nil => simp
  | cons x xs ih =>
    rw [List.foldl_cons]
    show List.foldl _ (some (acc ++ [scanRow x])) xs = _
    rw [ih]
    simp

theorem getAllReminders_eq (db : DB) :
    getAllReminders db = (.reminders 200 (some ((selectAll db).map scanRow)), db) := by
  unfold getAllReminders
  cases h : selectAll db with
  | nil => simp
  | cons x xs =>
    rw [List.foldl_cons]
    have : goAppend none (scanRow x) = some [scanRow x] := rfl
    rw [this, foldl_goAppend_some]
    simp

theorem wf_oneRow : oneRow.WF := by
  refine ⟨?_, ?_, ?_⟩
  · simp [oneRow]
  · intro r hr
    simp only [oneRow, List.mem_singleton] at hr
    subst hr
    exact le_rfl
  · simp [oneRow]

theorem map_setFields_absent {rows : List Row} {i : Int} (j : ReminderJSON) (now : String)
    (habs : ∀ r ∈ rows, r.id ≠ i) : rows.map (setFields i j now) = rows := by
  conv_rhs => rw [← List.map_id rows]
  apply List.map_congr_left
  intro r hr
  simp [setFields, habs r hr]

theorem filter_id_length_zero {rows : List Row} {i : Int} (habs : ∀ r ∈ rows, r.id ≠ i) :
    (rows.filter (fun r => r.id = i)).length = 0 := by
  rw [List.length_eq_zero, List.filter_eq_nil_iff]
  intro r hr
  simpa using habs r hr

theorem filter_id_length_pos {rows : List Row} {r : Row} (hr : r ∈ rows) :
    ¬ (rows.filter (fun x => x.id = r.id)).length = 0 := by
  rw [List.length_eq_zero, List.filter_eq_nil_iff]
  intro h
  simpa using h r hr

/-! ## Timestamps -/

theorem Step.times {db db' : DB} {now : String} (h : Step db now db')
    (h1 : ∀ r ∈ db.rows, r.created_at ≤ r.updated_at) (h2 : ∀ r ∈ db.rows, r.created_at ≤ now) :
    ∀ r ∈ db'.rows, r.created_at ≤ r.updated_at := by
  rcases h with rfl | ⟨j, rfl⟩ | ⟨k, j, rfl⟩ | ⟨p, rfl⟩
  · exact h1
  · intro r hr
    rcases List.mem_append.1 hr with hr | hr
    · exact h1 r hr
    · rw [List.mem_singleton] at hr
      subst hr
      exact le_refl _
  · intro r hr
    obtain ⟨x, hx, rfl⟩ := List.mem_map.1 hr
    unfold setFields
    split
    · exact h2 x hx
    · exact h1 x hx
  · intro r hr
    exact h1 r (List.mem_filter.1 hr).1

theorem Step.created_from {db db' : DB} {now : String} (h : Step db now db') :
    ∀ r' ∈ db'.rows, r'.created_at = now ∨ ∃ r ∈ db.rows, r.created_at = r'.created_at := by
  rcases h with rfl | ⟨j, rfl⟩ | ⟨k, j, rfl⟩ | ⟨p, rfl⟩
  · exact fun r' hr' => Or.inr ⟨r', hr', rfl⟩
  · intro r' hr'
    rcases List.mem_append.1 hr' with hr' | hr'
    · exact Or.inr ⟨r', hr', rfl⟩
    · rw [List.mem_singleton] at hr'
      subst hr'
      exact Or.inl rfl
  · intro r' hr'
    obtain ⟨x, hx, rfl⟩ := List.mem_map.1 hr'
    exact Or.inr ⟨x, hx, (setFields_created_at k j now x).symm⟩
  · exact fun r' hr' => Or.inr ⟨r', (List.mem_filter.1 hr').1, rfl⟩

theorem runDB_times (conv : String → Option Int) (db : DB) (evs : List Event)
    (h1 : ∀ r ∈ db.rows, r.created_at ≤ r.updated_at)
    (h2 : ∀ r ∈ db.rows, ∀ e ∈ evs, r.created_at ≤ e.now)
    (hmono : (evs.map Event.now).Pairwise (· ≤ ·)) :
    ∀ r ∈ (runDB conv db evs).rows, r.created_at ≤ r.updated_at := by
  induction evs generalizing db with
  | nil => exact h1
  | cons e es ih =>
    have hstep := serve_step conv db e
    rw [List.map_cons, List.pairwise_cons] at hmono
    apply ih
    · exact Step.times hstep h1 (fun r hr => h2 r hr e (List.mem_cons_self _ _))
    · intro r' hr' e' he'
      rcases Step.created_from hstep r' hr' with h | ⟨r, hr, h⟩
      · rw [h]
        exact hmono.1 e'.now (List.mem_map_of_mem _ he')
      · rw [← h]
        exact h2 r hr e' (List.mem_cons_of_mem _ he')
    · exact hmono.2

theorem sampleRun_nows :
    (sampleRun.map Event.now).Pairwise (· ≤ ·) := by
  have h : ("2024-01-01 08:00:00" : String) ≤ "2024-01-01 09:00:00" := by
    rw [String.le_iff_toList_le]
    decide
  show List.Pairwise (· ≤ ·) ["2024-01-01 08:00:00", "2024-01-01 08:00:00",
    "2024-01-01 09:00:00", "2024-01-01 09:00:00"]
  refine List.pairwise_cons.2 ⟨?_, List.pairwise_cons.2 ⟨?_, List.pairwise_cons.2
    ⟨?_, List.pairwise_singleton _ _⟩⟩⟩
  · intro a ha
    rcases List.mem_cons.1 ha with rfl | ha
    · exact le_refl _
    · rcases List.mem_cons.1 ha with rfl | ha
      · exact h
      · rw [List.mem_singleton] at ha
        subst ha
        exact h
  · intro a ha
    rcases List.mem_cons.1 ha with rfl | ha
    · exact h
    · rw [List.mem_singleton] at ha
      subst ha
      exact h
  · intro a ha
    rw [List.mem_singleton] at ha
    subst ha
    exact le_refl _

/-! ## The order of the list -/

theorem comesBefore_total (a b : Row) : comesBefore a b ∨ comesBefore b a := by
  unfold comesBefore
  rcases lt_trichotomy a.created_at b.created_at with h | h | h
  · exact Or.inr (Or.inl h)
  · rcases le_total a.id b.id with hi | hi
    · exact Or.inr (Or.inr ⟨h, hi⟩)
    · exact Or.inl (Or.inr ⟨h.symm, hi⟩)
  · exact Or.inl (Or.inl h)

theorem comesBefore_trans {a b c : Row} (hab : comesBefore a b) (hbc : comesBefore b c) :
    comesBefore a c := by
  unfold comesBefore at *
  rcases hab with hab | ⟨hab, hab'⟩
  · rcases hbc with hbc | ⟨hbc, -⟩
    · exact Or.inl (lt_trans hbc hab)
    · exact Or.inl (hbc ▸ hab)
  · rcases hbc with hbc | ⟨hbc, hbc'⟩
    · exact Or.inl (hab ▸ hbc)
    · exact Or.inr ⟨hbc.trans hab, le_trans hbc' hab'⟩

theorem selectAll_sorted (db : DB) : (selectAll db).Pairwise comesBefore := by
  haveI : IsTotal Row comesBefore := ⟨comesBefore_total⟩
  haveI : IsTrans Row comesBefore := ⟨fun _ _ _ => comesBefore_trans⟩
  exact List.sorted_insertionSort comesBefore db.rows

theorem selectAll_perm (db : DB) : (selectAll db).Perm db.rows :=
  List.perm_insertionSort comesBefore db.rows

theorem t0_lt_t1 : ("t0" : String) < "t1" := by
  rw [String.lt_iff_toList_lt]
  decide

theorem selectAll_twoRows :
    selectAll twoRows = [rowOfBody 2 oatMilk "t1" "t1", rowOfBody 1 milk "t0" "t0"] := by
  have h : comesBefore (rowOfBody 2 oatMilk "t1" "t1") (rowOfBody 1 milk "t0" "t0") :=
    Or.inl t0_lt_t1
  have h' : ¬ comesBefore (rowOfBody 1 milk "t0" "t0") (rowOfBody 2 oatMilk "t1" "t1") := by
    rintro (h1 | ⟨h1, -⟩)
    · exact lt_asymm t0_lt_t1 h1
    · exact absurd h1 (by decide)
  simp only [selectAll, twoRows, List.insertionSort, List.orderedInsert, h', if_false]

theorem selectAll_tiedRows :
    selectAll tiedRows =
      [rowOfBody 3 milk "t0" "t0", rowOfBody 2 oatMilk "t0" "t0", rowOfBody 1 milk "t0" "t0"] := by
  have h12 : ¬ comesBefore (rowOfBody 1 milk "t0" "t0") (rowOfBody 2 oatMilk "t0" "t0") := by
    rintro (h1 | ⟨-, h1⟩)
    · exact lt_irrefl _ h1
    · exact absurd h1 (by decide)
  have h13 : ¬ comesBefore (rowOfBody 1 milk "t0" "t0") (rowOfBody 3 milk "t0" "t0") := by
    rintro (h1 | ⟨-, h1⟩)
    · exact lt_irrefl _ h1
    · exact absurd h1 (by decide)
  have h23 : ¬ comesBefore (rowOfBody 2 oatMilk "t0" "t0") (rowOfBody 3 milk "t0" "t0") := by
    rintro (h1 | ⟨-, h1⟩)
    · exact lt_irrefl _ h1
    · exact absurd h1 (by decide)
  simp only [selectAll, tiedRows, List.insertionSort, List.orderedInsert, h12, h13, h23,
    if_false]

theorem wf_flagTwo : flagTwo.WF := by
  refine ⟨?_, ?_, ?_⟩
  · simp [flagTwo]
  · intro r hr
    simp only [flagTwo, List.mem_singleton] at hr
    subst hr
    exact le_rfl
  · simp [flagTwo]

/-! ## Claims -/

/-- C1: in every run of create, update, delete (and read) requests from the
empty store, whatever the bodies carry as `id`, the ids returned by the 201
responses are strictly increasing in the order of the requests: each is
greater than every id returned before it, deleted or not. -/
theorem created_ids_strictly_increasing (conv : String → Option Int) (evs : List Event) :
    (createdIds (runResponses conv DB.empty evs)).Pairwise (· < ·) :=
  (createdIds_run conv DB.empty evs).2

/-- C2: for every store and every valid create body, when `createReminder`
answers 201 its body carries an id `i` such that `getReminder` on a path
parameter the engine reads as `i` answers 200 with that id, the title,
description, time, category and frequency of the body, `completed` equal to
the one of the body (false when the key is missing), and both timestamps
equal to the time of the insert. -/
theorem create_then_get_roundtrip (conv : String → Option Int) (db : DB) (now : String)
    (j : ReminderJSON) (hj : j.Valid)
    (h201 : (createReminder db now (.ok j)).1.status = 201) :
    ∃ i : Int,
      (createReminder db now (.ok j)).1 = .reminder 201 { unmarshal j with ID := i } ∧
      ∀ s : String, conv s = some i →
        getReminder conv (createReminder db now (.ok j)).2 s =
          (.reminder 200
            (Reminder.mk i (j.title.getD "") (j.description.getD "") (j.time.getD "")
              (j.completed.getD false) (j.category.getD "") (j.frequency.getD "") now now),
           (createReminder db now (.ok j)).2) := by
  have hf : j.IdFits := by
    by_contra hf
    obtain ⟨e, he⟩ := createReminder_rejected db now j (fun h => hf h.1)
    rw [he] at h201
    simp [Response.status] at h201
  by_cases hfull : max db.seq (largestRowid db.rows) ≥ maxRowid
  · rw [createReminder_full db now j hf hj hfull] at h201
    simp [Response.status] at h201
  · rw [createReminder_created db now j hf hj hfull]
    refine ⟨nextRowid db, rfl, ?_⟩
    intro s hs
    have hold : db.rows.find? (fun r => conv s = some r.id) = none := by
      rw [List.find?_eq_none]
      intro x hx
      have := id_lt_nextRowid hx
      simp only [hs, Option.some.injEq, decide_eq_true_eq]
      omega
    have hnew : conv s = some (rowOfBody (nextRowid db) j now now).id := hs
    have hfind : (db.rows ++ [rowOfBody (nextRowid db) j now now]).find?
        (fun r => conv s = some r.id) = some (rowOfBody (nextRowid db) j now now) := by
      rw [List.find?_append, hold, Option.none_or, List.find?_cons_of_pos]
      exact decide_eq_true hnew
    simp only [getReminder, selectById, hfind, scanRow_rowOfBody]

theorem create_then_get_roundtrip_witness :
    oatMilk.Valid ∧ (createReminder DB.empty "t0" (.ok oatMilk)).1.status = 201 ∧
    ∃ i : Int,
      (createReminder DB.empty "t0" (.ok oatMilk)).1 =
        .reminder 201 { unmarshal oatMilk with ID := i } ∧
      ∀ s : String, decimalConv s = some i →
        getReminder decimalConv (createReminder DB.empty "t0" (.ok oatMilk)).2 s =
          (.reminder 200
            (Reminder.mk i (oatMilk.title.getD "") (oatMilk.description.getD "")
              (oatMilk.time.getD "") (oatMilk.completed.getD false)
              (oatMilk.category.getD "") (oatMilk.frequency.getD "") "t0" "t0"),
           (createReminder DB.empty "t0" (.ok oatMilk)).2) :=
  ⟨by decide, by decide,
    create_then_get_roundtrip decimalConv DB.empty "t0" oatMilk (by decide) (by decide)⟩

/-- C3: for every store and every well-typed create body (the `id`, when
given, fits `int64`), `createReminder` answers 400 exactly when one of
`title`, `time`, `category`, `frequency` is missing or the empty string
(`description` and `completed` play no part); and whenever it answers 400, for
any body at all, the store is the one before and a list request returns what
it returned before. -/
theorem create_rejects_missing_required (db : DB) (now : String) (j : ReminderJSON)
    (hf : j.IdFits) :
    ((createReminder db now (.ok j)).1.status = 400 ↔
      (missing j.title ∨ missing j.time ∨ missing j.category ∨ missing j.frequency)) ∧
    (∀ body : RequestBody, (createReminder db now body).1.status = 400 →
      (createReminder db now body).2 = db ∧
      (getAllReminders (createReminder db now body).2).1 = (getAllReminders db).1) := by
  have hv : ¬ j.Valid ↔
      (missing j.title ∨ missing j.time ∨ missing j.category ∨ missing j.frequency) := by
    have key : ∀ a b c d : Prop, ¬ (¬ a ∧ ¬ b ∧ ¬ c ∧ ¬ d) ↔ (a ∨ b ∨ c ∨ d) := by
      intro a b c d
      tauto
    exact key _ _ _ _
  have hkeep : ∀ body : RequestBody, (createReminder db now body).1.status = 400 →
      (createReminder db now body).2 = db := by
    intro body h
    cases body with
    | error msg => rfl
    | ok k =>
      by_cases hk : k.IdFits ∧ k.Valid
      · by_cases hfull : max db.seq (largestRowid db.rows) ≥ maxRowid
        · rw [createReminder_full db now k hk.1 hk.2 hfull]
        · rw [createReminder_created db now k hk.1 hk.2 hfull] at h
          simp [Response.status] at h
      · obtain ⟨e, he⟩ := createReminder_rejected db now k hk
        rw [he]
  refine ⟨?_, fun body h => ⟨hkeep body h, by rw [hkeep body h]⟩⟩
  by_cases hj : j.Valid
  · have hne : (createReminder db now (.ok j)).1.status ≠ 400 := by
      by_cases hfull : max db.seq (largestRowid db.rows) ≥ maxRowid
      · rw [createReminder_full db now j hf hj hfull]; simp [Response.status]
      · rw [createReminder_created db now j hf hj hfull]; simp [Response.status]
    exact ⟨fun h => absurd h hne, fun h => absurd hj (hv.2 h)⟩
  · rw [createReminder_invalid db now j hf hj]
    exact ⟨fun _ => hv.1 hj, fun _ => rfl⟩

theorem create_rejects_missing_required_witness :
    untitled.IdFits ∧ missing untitled.title ∧
    (createReminder oneRow "t1" (.ok untitled)).1.status = 400 ∧
    (createReminder oneRow "t1" (.ok untitled)).2 = oneRow ∧
    (getAllReminders (createReminder oneRow "t1" (.ok untitled)).2).1 =
      (getAllReminders oneRow).1 :=
  ⟨by decide, by decide,
    (create_rejects_missing_required oneRow "t1" untitled (by decide)).1.2
      (Or.inl (by decide)),
    (create_rejects_missing_required oneRow "t1" untitled (by decide)).2 (.ok untitled)
      ((create_rejects_missing_required oneRow "t1" untitled (by decide)).1.2
        (Or.inl (by decide)))⟩

/-- C4: for every store, every path id that parses to an integer matching no
row and every valid body (well-typed, the four required fields present and
not empty), `updateReminder` answers 404 and the store is unchanged: nothing
is inserted and no row is modified. -/
theorem update_unknown_id_not_found (db : DB) (now s : String) (i : Int) (j : ReminderJSON)
    (hp : ParseInt s = some i) (habs : ∀ r ∈ db.rows, r.id ≠ i) (hf : j.IdFits)
    (hj : j.Valid) :
    updateReminder db now s (.ok j) = (.error 404 (.text "Reminder not found"), db) := by
  rw [updateReminder_valid db now s i j hp hf hj, map_setFields_absent j now habs,
    if_pos (filter_id_length_zero habs)]

theorem update_unknown_id_not_found_witness :
    ParseInt "999999" = some 999999 ∧ (∀ r ∈ oneRow.rows, r.id ≠ 999999) ∧ oatMilk.IdFits ∧
    oatMilk.Valid ∧
    updateReminder oneRow "t1" "999999" (.ok oatMilk) =
      (.error 404 (.text "Reminder not found"), oneRow) :=
  ⟨by decide, by decide, by decide, by decide,
    update_unknown_id_not_found oneRow "t1" "999999" 999999 oatMilk (by decide) (by decide)
      (by decide) (by decide)⟩

/-- C7: for every consistent store and every path parameter, `getReminder`
leaves the store unchanged; it answers 404 with the not-found message when no
row has the id the engine reads from the parameter, in particular when the
engine reads no integer from it (a non-numeric string); and when a row has
that id it answers 200 with exactly that row: its id, title, description,
time, category, frequency and both timestamps as stored, and `completed`
true exactly when the stored integer is not 0. -/
theorem get_found_or_not_found (conv : String → Option Int) (db : DB) (s : String)
    (hwf : db.WF) :
    (getReminder conv db s).2 = db ∧
    ((∀ r ∈ db.rows, conv s ≠ some r.id) →
      (getReminder conv db s).1 = .error 404 (.text "Reminder not found")) ∧
    (conv s = none → (getReminder conv db s).1 = .error 404 (.text "Reminder not found")) ∧
    (∀ r ∈ db.rows, conv s = some r.id →
      (getReminder conv db s).1 =
        .reminder 200
          (Reminder.mk r.id r.title r.description r.time (decide (r.completed ≠ 0))
            r.category r.frequency r.created_at r.updated_at)) := by
  have h404 : (∀ r ∈ db.rows, conv s ≠ some r.id) →
      (getReminder conv db s).1 = .error 404 (.text "Reminder not found") := by
    intro h
    simp [getReminder, selectById_none h]
  refine ⟨getReminder_db conv db s, h404, ?_, ?_⟩
  · intro h
    exact h404 (fun r _ => by simp [h])
  · intro r hr hc
    simp only [getReminder, selectById_of_mem hwf hr hc, scanRow]

theorem get_found_or_not_found_witness :
    oneRow.WF ∧ flagTwo.WF ∧
    (getReminder decimalConv oneRow "abc").2 = oneRow ∧
    (getReminder decimalConv oneRow "abc").1 = .error 404 (.text "Reminder not found") ∧
    (getReminder decimalConv oneRow "2").1 = .error 404 (.text "Reminder not found") ∧
    (getReminder decimalConv oneRow "1").1 =
      .reminder 200 (Reminder.mk 1 "Buy milk" "" "08:00" false "errand" "once" "t0" "t0") ∧
    (getReminder decimalConv flagTwo "5").1 =
      .reminder 200 (Reminder.mk 5 "Call home" "" "19:00" true "family" "daily" "t0" "t3") :=
  ⟨wf_oneRow, wf_flagTwo,
    (get_found_or_not_found decimalConv oneRow "abc" wf_oneRow).1,
    (get_found_or_not_found decimalConv oneRow "abc" wf_oneRow).2.2.1 (by decide),
    (get_found_or_not_found decimalConv oneRow "2" wf_oneRow).2.1 (by decide),
    (get_found_or_not_found decimalConv oneRow "1" wf_oneRow).2.2.2
      (rowOfBody 1 milk "t0" "t0") (List.mem_singleton.2 rfl) (by decide),
    (get_found_or_not_found decimalConv flagTwo "5" wf_flagTwo).2.2.2
      (Row.mk 5 "Call home" "" "19:00" 2 "family" "daily" "t0" "t3")
      (List.mem_singleton.2 rfl) (by decide)⟩

/-- C8: for every store, `getAllReminders` leaves the store unchanged and
answers 200 with a non-nil list that is a permutation of the stored rows (each
row once and nothing else, every row with its fields as stored and
`completed` true exactly when the stored integer is not 0), in descending
order of `created_at`, rows of equal `created_at` in descending order of
`id`; on the empty store the body is the empty list, not nil. -/
theorem list_all_sorted_desc (db : DB) :
    (∃ l : List Reminder,
      getAllReminders db = (.reminders 200 (some l), db) ∧
      l.Perm (db.rows.map (fun r =>
        Reminder.mk r.id r.title r.description r.time (decide (r.completed ≠ 0))
          r.category r.frequency r.created_at r.updated_at)) ∧
      l.Pairwise (fun a b => b.CreatedAt ≤ a.CreatedAt) ∧
      l.Pairwise (fun a b =>
        b.CreatedAt < a.CreatedAt ∨ (b.CreatedAt = a.CreatedAt ∧ b.ID ≤ a.ID))) ∧
    getAllReminders DB.empty = (.reminders 200 (some []), DB.empty) := by
  refine ⟨⟨(selectAll db).map scanRow, getAllReminders_eq db, ?_, ?_, ?_⟩, rfl⟩
  · exact (selectAll_perm db).map scanRow
  · rw [List.pairwise_map]
    refine (selectAll_sorted db).imp ?_
    intro a b hab
    rcases hab with h | ⟨h, -⟩
    · exact le_of_lt h
    · exact le_of_eq h
  · rw [List.pairwise_map]
    exact selectAll_sorted db

theorem list_all_sorted_desc_witness :
    (∃ l : List Reminder,
      getAllReminders twoRows = (.reminders 200 (some l), twoRows) ∧
      l.Perm
        [Reminder.mk 1 "Buy milk" "" "08:00" false "errand" "once" "t0" "t0",
         Reminder.mk 2 "Buy oat milk" "" "08:00" true "errand" "once" "t1" "t1"] ∧
      l.Pairwise (fun a b => b.CreatedAt ≤ a.CreatedAt) ∧
      l.Pairwise (fun a b =>
        b.CreatedAt < a.CreatedAt ∨ (b.CreatedAt = a.CreatedAt ∧ b.ID ≤ a.ID))) ∧
    getAllReminders twoRows =
      (.reminders 200 (some
        [Reminder.mk 2 "Buy oat milk" "" "08:00" true "errand" "once" "t1" "t1",
         Reminder.mk 1 "Buy milk" "" "08:00" false "errand" "once" "t0" "t0"]), twoRows) ∧
    getAllReminders tiedRows =
      (.reminders 200 (some
        [Reminder.mk 3 "Buy milk" "" "08:00" false "errand" "once" "t0" "t0",
         Reminder.mk 2 "Buy oat milk" "" "08:00" true "errand" "once" "t0" "t0",
         Reminder.mk 1 "Buy milk" "" "08:00" false "errand" "once" "t0" "t0"]), tiedRows) :=
  ⟨(list_all_sorted_desc twoRows).1,
    by rw [getAllReminders_eq, selectAll_twoRows]; rfl,
    by rw [getAllReminders_eq, selectAll_tiedRows]; rfl⟩

/-- C9: for every store, every request body, valid or not, and every path id
that is not a base-10 literal of a signed 64-bit integer (so that
`strconv.ParseInt(id, 10, 64)` fails), `updateReminder` answers 400 with the
invalid-id message and leaves the store unchanged; the body is not looked
at, so an invalid body does not change the answer. -/
theorem update_unparseable_id_bad_request (db : DB) (now s : String) (body : RequestBody)
    (hp : ¬ ∃ i : Int, IsDecimalInt64 s i) :
    updateReminder db now s body = (.error 400 (.text "Invalid ID"), db) :=
  updateReminder_badId db now s body ((ParseInt_eq_none_iff s).2 hp)

theorem update_unparseable_id_bad_request_witness :
    (¬ ∃ i : Int, IsDecimalInt64 "abc" i) ∧
    updateReminder oneRow "t1" "abc" (.ok untitled) =
      (.error 400 (.text "Invalid ID"), oneRow) :=
  ⟨(ParseInt_eq_none_iff "abc").1 (by decide),
    update_unparseable_id_bad_request oneRow "t1" "abc" (.ok untitled)
      ((ParseInt_eq_none_iff "abc").1 (by decide))⟩

/-- C5: for every consistent store and path parameter, `deleteReminder`
answers 200 exactly when a row has the id the engine reads from the
parameter, and 404 exactly when none has; after a delete that answered 200,
whatever requests are served in between, a delete of the same id answers 404
(the id is not assigned again); and a delete that answers 404 leaves the
store unchanged. -/
theorem delete_ok_once_then_not_found (conv : String → Option Int) (db : DB) (s : String)
    (hwf : db.WF) :
    ((deleteReminder conv db s).1.status = 200 ↔ ∃ r ∈ db.rows, conv s = some r.id) ∧
    ((deleteReminder conv db s).1.status = 404 ↔ ¬ ∃ r ∈ db.rows, conv s = some r.id) ∧
    ((deleteReminder conv db s).1.status = 200 →
      ∀ (evs : List Event) (s' : String), conv s' = conv s →
        (deleteReminder conv (runDB conv (deleteReminder conv db s).2 evs) s').1 =
          .error 404 (.text "Reminder not found")) ∧
    ((deleteReminder conv db s).1.status = 404 → (deleteReminder conv db s).2 = db) := by
  have hlen : (db.rows.filter (fun r => conv s = some r.id)).length = 0 ↔
      ¬ ∃ r ∈ db.rows, conv s = some r.id := by
    rw [List.length_eq_zero, List.filter_eq_nil_iff]
    constructor
    · rintro h ⟨r, hr, hc⟩
      exact h r hr (decide_eq_true hc)
    · intro h r hr hc
      exact h ⟨r, hr, of_decide_eq_true hc⟩
  have h200 : (deleteReminder conv db s).1.status = 200 ↔ ∃ r ∈ db.rows, conv s = some r.id := by
    rw [deleteReminder_eq]
    simp only
    split
    · rename_i h0
      simp only [Response.status]
      exact ⟨fun h => by omega, fun h => absurd h (hlen.1 h0)⟩
    · rename_i h0
      simp only [Response.status]
      exact ⟨fun _ => not_not.1 (fun h => h0 (hlen.2 h)), fun _ => trivial⟩
  have h404 : (deleteReminder conv db s).1.status = 404 ↔
      ¬ ∃ r ∈ db.rows, conv s = some r.id := by
    rw [deleteReminder_eq]
    simp only
    split
    · rename_i h0
      simp only [Response.status]
      exact ⟨fun _ => hlen.1 h0, fun _ => trivial⟩
    · rename_i h0
      simp only [Response.status]
      exact ⟨fun h => by omega, fun h => absurd (hlen.2 h) h0⟩
  refine ⟨h200, h404, ?_, ?_⟩
  · intro h evs s' hs'
    obtain ⟨r, hr, hc⟩ := h200.1 h
    have hgone : ∀ x ∈ (deleteReminder conv db s).2.rows, x.id ≠ r.id := by
      rw [deleteReminder_eq]
      intro x hx hid
      have := (List.mem_filter.1 hx).2
      simp [hc, hid] at this
    have hseq : r.id ≤ (deleteReminder conv db s).2.seq := by
      rw [deleteReminder_eq]
      exact hwf.2.1 r hr
    have hlater := runDB_absent conv _ evs hseq hgone
    rw [deleteReminder_eq]
    have h0 : ((runDB conv (deleteReminder conv db s).2 evs).rows.filter
        (fun x => conv s' = some x.id)).length = 0 := by
      rw [List.length_eq_zero, List.filter_eq_nil_iff]
      intro x hx hcx
      have hcx := of_decide_eq_true hcx
      rw [hs', hc, Option.some.injEq] at hcx
      exact hlater x hx hcx.symm
    simp only [h0, if_true]
  · intro h
    have hno := h404.1 h
    rw [deleteReminder_eq]
    have : db.rows.filter (fun r => ¬ (conv s = some r.id)) = db.rows := by
      rw [List.filter_eq_self]
      intro r hr
      have : ¬ conv s = some r.id := fun hc => hno ⟨r, hr, hc⟩
      simpa using this
    simp only [this]

theorem delete_ok_once_then_not_found_witness :
    oneRow.WF ∧ (deleteReminder decimalConv oneRow "1").1.status = 200 ∧
    (deleteReminder decimalConv
      (runDB decimalConv (deleteReminder decimalConv oneRow "1").2 sampleRun) "1").1 =
        .error 404 (.text "Reminder not found") :=
  ⟨wf_oneRow, by decide,
    (delete_ok_once_then_not_found decimalConv oneRow "1" wf_oneRow).2.2.1 (by decide)
      sampleRun "1" rfl⟩

/-- C10: in every store reached from the empty store by a run of requests
whose `CURRENT_TIMESTAMP` values never decrease, every row has
`created_at ≤ updated_at`; and a row that is in the store after a part of the
run and whose id is in the store at the end has the same `created_at` there. -/
theorem timestamps_ordered_and_created_at_fixed (conv : String → Option Int)
    (evs : List Event) (hmono : (evs.map Event.now).Pairwise (· ≤ ·)) :
    (∀ r ∈ (runDB conv DB.empty evs).rows, r.created_at ≤ r.updated_at) ∧
    (∀ pre post : List Event, evs = pre ++ post →
      ∀ r ∈ (runDB conv DB.empty pre).rows, ∀ r' ∈ (runDB conv DB.empty evs).rows,
        r'.id = r.id → r'.created_at = r.created_at) := by
  refine ⟨?_, ?_⟩
  · apply runDB_times conv DB.empty evs _ _ hmono
    · intro r hr
      simp [DB.empty] at hr
    · intro r hr
      simp [DB.empty] at hr
  · intro pre post hsplit r hr r' hr' hid
    subst hsplit
    rw [runDB_append] at hr'
    exact runDB_created_at conv _ post (runDB_wf conv _ pre wf_empty) hr hr' hid

theorem timestamps_ordered_and_created_at_fixed_witness :
    (sampleRun.map Event.now).Pairwise (· ≤ ·) ∧
    (∀ r ∈ (runDB decimalConv DB.empty sampleRun).rows, r.created_at ≤ r.updated_at) ∧
    (∀ pre post : List Event, sampleRun = pre ++ post →
      ∀ r ∈ (runDB decimalConv DB.empty pre).rows,
        ∀ r' ∈ (runDB decimalConv DB.empty sampleRun).rows,
          r'.id = r.id → r'.created_at = r.created_at) :=
  ⟨sampleRun_nows,
    timestamps_ordered_and_created_at_fixed decimalConv sampleRun sampleRun_nows⟩

/-- C6: for every consistent store with a row of id `i`, every path id that
parses to `i` and every valid body (well-typed, the four required fields
present and not empty), `updateReminder` answers 200 with the
bound body and `id = i`; in the store after it the sequence counter and the
list of ids are the ones before (no row added or removed), the row of id `i`
has the title, description, time, completed, category and frequency of the
body, `updated_at` equal to the current time and its old `created_at`, every
row of another id is unchanged, and `getReminder` on `i` returns the new
values. -/
theorem update_existing_overwrites_row (conv : String → Option Int) (db : DB) (now s : String)
    (j : ReminderJSON) (r : Row) (hwf : db.WF) (hr : r ∈ db.rows)
    (hp : ParseInt s = some r.id) (hf : j.IdFits) (hj : j.Valid) :
    (updateReminder db now s (.ok j)).1 = .reminder 200 { unmarshal j with ID := r.id } ∧
    (updateReminder db now s (.ok j)).2.seq = db.seq ∧
    (updateReminder db now s (.ok j)).2.rows.map Row.id = db.rows.map Row.id ∧
    rowOfBody r.id j r.created_at now ∈ (updateReminder db now s (.ok j)).2.rows ∧
    (∀ x ∈ (updateReminder db now s (.ok j)).2.rows, x.id = r.id →
      x = rowOfBody r.id j r.created_at now) ∧
    (∀ x : Row, x.id ≠ r.id →
      (x ∈ (updateReminder db now s (.ok j)).2.rows ↔ x ∈ db.rows)) ∧
    (∀ s' : String, conv s' = some r.id →
      getReminder conv (updateReminder db now s (.ok j)).2 s' =
        (.reminder 200
          (Reminder.mk r.id (j.title.getD "") (j.description.getD "") (j.time.getD "")
            (j.completed.getD false) (j.category.getD "") (j.frequency.getD "")
            r.created_at now),
         (updateReminder db now s (.ok j)).2)) := by
  rw [updateReminder_valid db now s r.id j hp hf hj]
  have hnew : rowOfBody r.id j r.created_at now ∈ db.rows.map (setFields r.id j now) := by
    refine List.mem_map.2 ⟨r, hr, ?_⟩
    simp [setFields]
  have hsame : ∀ x ∈ db.rows.map (setFields r.id j now), x.id = r.id →
      x = rowOfBody r.id j r.created_at now := by
    intro x hx hid
    obtain ⟨y, hy, rfl⟩ := List.mem_map.1 hx
    rw [setFields_id] at hid
    rw [eq_of_id_eq hwf hr hy hid]
    simp [setFields]
  have hwf' : ({ db with rows := db.rows.map (setFields r.id j now) } : DB).WF :=
    Step.wf (show Step db now _ from Or.inr (Or.inr (Or.inl ⟨r.id, j, rfl⟩))) hwf
  refine ⟨?_, rfl, map_setFields_ids r.id j now db.rows, hnew, hsame, ?_, ?_⟩
  · simp only [if_neg (filter_id_length_pos hr)]
  · intro x hx
    constructor
    · intro hm
      obtain ⟨y, hy, rfl⟩ := List.mem_map.1 hm
      rw [setFields_id] at hx
      simpa [setFields, hx] using hy
    · intro hm
      refine List.mem_map.2 ⟨x, hm, ?_⟩
      simp [setFields, hx]
  · intro s' hs'
    have hc : conv s' = some (rowOfBody r.id j r.created_at now).id := hs'
    simp only [getReminder, selectById_of_mem hwf' hnew hc, scanRow_rowOfBody]

theorem update_existing_overwrites_row_witness :
    oneRow.WF ∧ rowOfBody 1 milk "t0" "t0" ∈ oneRow.rows ∧
    ParseInt "1" = some (rowOfBody 1 milk "t0" "t0").id ∧ oatMilk.IdFits ∧ oatMilk.Valid ∧
    (updateReminder oneRow "t1" "1" (.ok oatMilk)).1 =
      .reminder 200 { unmarshal oatMilk with ID := 1 } ∧
    getReminder decimalConv (updateReminder oneRow "t1" "1" (.ok oatMilk)).2 "1" =
      (.reminder 200 (Reminder.mk 1 "Buy oat milk" "" "08:00" true "errand" "once" "t0" "t1"),
       (updateReminder oneRow "t1" "1" (.ok oatMilk)).2) :=
  ⟨wf_oneRow, List.mem_singleton.2 rfl, by decide, by decide, by decide,
    (update_existing_overwrites_row decimalConv oneRow "t1" "1" oatMilk
      (rowOfBody 1 milk "t0" "t0") wf_oneRow (List.mem_singleton.2 rfl) (by decide)
      (by decide) (by decide)).1,
    (update_existing_overwrites_row decimalConv oneRow "t1" "1" oatMilk
      (rowOfBody 1 milk "t0" "t0") wf_oneRow (List.mem_singleton.2 rfl) (by decide)
      (by decide) (by decide)).2.2.2.2.2.2 "1" (by decide)⟩

end SyncServer
